import Mathlib

/-!
Shallow embedding of `src/storage_adapter.js` (knex/PostgreSQL storage adapter
for oidc-provider).

Modelling conventions:
* Instants are `Int`, milliseconds since the epoch (JS `Date.now()`).
* A record's payload (`data`) is modelled as a flat association list from
  string keys to string values; this is sufficient for everything the adapter
  itself does with payloads (structural containment on the `uid`, `userCode`
  and `grantId` fields, and setting the `consumed` field).
* A table (one physical namespace `oidc.<snake_case_name>`) is a list of rows;
  the whole database is a function from table name to table.
* knex/SQL three-valued logic on `expires_at`: a `NULL` value satisfies
  neither `expires_at > now` nor `expires_at <= now`; this is reflected in
  `visible` and `purgeTable` by the `Option` match.
* JS promise results are modelled with `Except String`: `Except.error` is a
  rejected promise (a thrown error), `Except.ok` a fulfilled one.  `find`,
  `findByUid` and `findByUserCode` fulfill with `null` when nothing matches;
  that fulfilled `null` is the `none` of their `Option Data` result.
* The module-global purge scheduler state and the fire-and-forget
  `schedulePurge()` call are modelled as a step machine on a system state:
  an `upsertStep` performs the synchronous prefix of `schedulePurge`
  (check/set of `purge_scheduled`, counter reset) and records the purge as a
  *pending* task; the purge itself (`StorageAdapter.purge`) runs in a later
  `runSweepStep`, and the cooldown expiry (`purge_scheduled = false` after
  `delay(...)`) in a later `cooldownStep`.  `sweepsTriggered` is a ghost
  counter of how many times `schedulePurge` actually proceeded past its
  `purge_scheduled` guard.
-/

namespace StorageAdapter

/-- Payload of a record: a flat string-keyed map, as an association list. -/
abbrev Data := List (String × String)

/-- Structural containment of a single field: `data @> {field: v}` holds when
`data` maps `field` to `v`. -/
def lookupField (d : Data) (field : String) : Option String :=
  List.lookup field d

/-- JS property assignment `data[field] = v`. -/
def setField (d : Data) (field v : String) : Data :=
  d.filter (fun kv => kv.1 != field) ++ [(field, v)]

/-- One row of a table, with the columns the adapter reads and writes.
`created_at` is filled by the database default at insertion (the adapter's
`insert` never supplies it); `updated_at` and `expires_at` are nullable. -/
structure Record where
  id : String
  data : Data
  created_at : Int
  updated_at : Option Int
  expires_at : Option Int
deriving Repr, DecidableEq

/-- A physical namespace (one table) is a list of rows. -/
abbrev Table := List Record

/-- The whole database, keyed by physical table name. -/
abbrev Db := String → Table

/-- The `to-snake-case` transform used to derive the table name, restricted to
the ASCII camel-case names the adapter is instantiated with. -/
def toSnakeCase (s : String) : String :=
  s.data.foldl
    (fun acc c =>
      if c.isUpper then
        (if acc.isEmpty then acc else acc ++ "_") ++ (Char.toLower c).toString
      else acc ++ c.toString)
    ""

/-- `this.table_name` from the constructor. -/
def tableName (name : String) : String :=
  "oidc." ++ toSnakeCase name

/-- The volatile (expiring) record types: every oidc-provider type except
`Client`. -/
def VOLATILE_TYPES : List String :=
  ["Session", "AccessToken", "AuthorizationCode", "RefreshToken",
   "ClientCredentials", "InitialAccessToken", "RegistrationAccessToken",
   "DeviceCode", "Interaction", "ReplayDetection",
   "PushedAuthorizationRequest"]

/-- The physical table names of the volatile types. -/
def volatileTableNames : List String :=
  VOLATILE_TYPES.map tableName

/-- The read-path visibility filter
`whereNull('expires_at').orWhere('expires_at', '>', new Date())`:
a row is returned when `expires_at` is NULL or strictly in the future. -/
def visible (r : Record) (now : Int) : Bool :=
  match r.expires_at with
  | none => true
  | some e => now < e

/-- The `expires_at` value that `upsert` puts into `update_props`.  The JS
guard `if (expiresIn)` is truthiness: an `expiresIn` of `0` (like an omitted
one) leaves `expires_at` out of `update_props` (`none` here); a nonzero
`expiresIn`, negative included, yields
`new Date(Date.now() + expiresIn * 1000)`. -/
def newExpires (expiresIn : Option Int) (now : Int) : Option Int :=
  match expiresIn with
  | some e => if e = 0 then none else some (now + e * 1000)
  | none => none

/-- Effect of an SQL `update` on a nullable column: a column present in
`update_props` overwrites, an absent one keeps the stored value. -/
def mergeExpires (newE old : Option Int) : Option Int :=
  match newE with
  | some e => some e
  | none => old

/-- `upsert(id, payload, expiresIn)`, database part: select by id, then
either `update` (overwriting `data`, `updated_at`, and `expires_at` when the
latter is in `update_props`) or `insert` (with `created_at` from the
database default and NULL `updated_at`). -/
def upsert (tbl : Table) (id : String) (payload : Data)
    (expiresIn : Option Int) (now : Int) : Table :=
  if (tbl.filter (fun r => r.id == id)).isEmpty then
    tbl ++ [{ id := id, data := payload, created_at := now,
              updated_at := none, expires_at := newExpires expiresIn now }]
  else
    tbl.map (fun r =>
      if r.id == id then
        { r with
          data := payload
          updated_at := some now
          expires_at := mergeExpires (newExpires expiresIn now) r.expires_at }
      else r)

/-- `find(id)`: first row matching `id` that passes the visibility filter;
fulfills with `null` (here `none`) when there is none. -/
def find (tbl : Table) (id : String) (now : Int) : Option Data :=
  ((tbl.filter (fun r => r.id == id && visible r now)).head?).map (fun r => r.data)

/-- Common body of `findByUid` and `findByUserCode`: first visible row whose
`data` structurally contains `{field: v}`. -/
def findByField (tbl : Table) (field v : String) (now : Int) : Option Data :=
  ((tbl.filter (fun r => lookupField r.data field == some v && visible r now)).head?).map
    (fun r => r.data)

/-- `findByUid(uid)`. -/
def findByUid (tbl : Table) (uid : String) (now : Int) : Option Data :=
  findByField tbl "uid" uid now

/-- `findByUserCode(userCode)`. -/
def findByUserCode (tbl : Table) (userCode : String) (now : Int) : Option Data :=
  findByField tbl "userCode" userCode now

/-- `consume(id)`: reads `record[0].data` with no emptiness check, so when no
row has this id the access throws (the promise rejects) — modelled by
`Except.error`.  Otherwise it sets `data.consumed` to the current instant and
writes `data` back with `.update({data})`, touching no other column. -/
def consume (tbl : Table) (id : String) (now : Int) : Except String Table :=
  match tbl.filter (fun r => r.id == id) with
  | [] => Except.error "TypeError: record[0] is undefined"
  | r0 :: _ =>
    let d := setField r0.data "consumed" (toString now)
    Except.ok (tbl.map (fun r => if r.id == id then { r with data := d } else r))

/-- The per-table part of the static `purge()`:
`where('expires_at', '<=', now).del()`.  A NULL `expires_at` does not satisfy
`expires_at <= now`, so durable rows are kept. -/
def purgeTable (tbl : Table) (now : Int) : Table :=
  tbl.filter (fun r =>
    match r.expires_at with
    | none => true
    | some e => now < e)

/-- Static `purge()`: delete the expired rows of every volatile table,
leaving every other table untouched. -/
def purge (db : Db) (now : Int) : Db :=
  fun t => if volatileTableNames.contains t then purgeTable (db t) now else db t

/-- Ordering used by `get`'s default `orderBy(['updated_at', 'desc'])`:
`a` sorts before `b` in descending order; PostgreSQL's `DESC` puts NULLs
first. -/
def updatedDescBefore (a b : Record) : Bool :=
  match a.updated_at, b.updated_at with
  | none, _ => true
  | some _, none => false
  | some x, some y => y ≤ x

/-- Insertion step of the stable sort used to model `orderBy`. -/
def insertByUpdatedDesc (r : Record) : Table → Table
  | [] => [r]
  | x :: xs => if updatedDescBefore r x then r :: x :: xs else x :: insertByUpdatedDesc r xs

/-- Stable sort by `updated_at` descending. -/
def sortByUpdatedDesc (tbl : Table) : Table :=
  tbl.foldr insertByUpdatedDesc []

/-- `get({ids, options})` with the default ordering: optionally restrict to
the given ids, then order by `updated_at` descending. -/
def get (tbl : Table) (ids : Option (List String)) : Table :=
  sortByUpdatedDesc (tbl.filter (fun r =>
    match ids with
    | none => true
    | some l => l.contains r.id))

/-- One entry of `getVolatileRecordsStats()`. -/
structure TypeStats where
  type_name : String
  count : Nat
  date_min : Option Int
  date_max : Option Int
deriving Repr, DecidableEq

/-- Static `getVolatileRecordsStats()`: for each volatile type,
`count('id').min('created_at').max('created_at')` over the whole table —
the query has no `where` clause. -/
def getVolatileRecordsStats (db : Db) : List TypeStats :=
  VOLATILE_TYPES.map (fun n =>
    let tbl := db (tableName n)
    { type_name := n
      count := tbl.length
      date_min := (tbl.map (fun r => r.created_at)).min?
      date_max := (tbl.map (fun r => r.created_at)).max? })

/-- Modelled from the spec: the count of *live* (unexpired) rows of a table,
the `liveRowCount` that `statsByType()` is claimed to return.  This is the
spec-side definition used to compare against `getVolatileRecordsStats`. -/
def liveRowCount (tbl : Table) (now : Int) : Nat :=
  (tbl.filter (fun r => visible r now)).length

/-- The module-global purge scheduler state of `storage_adapter.js`. -/
structure SchedState where
  purge_single_execution_protection_delay : Int
  purge_every_upserts_count : Nat
  upserts_since_purge_count : Nat
  purge_scheduled : Bool
  purge_last_date : Option Int
deriving Repr, DecidableEq

/-- The module-load initial values of the scheduler globals. -/
def initialSched : SchedState :=
  { purge_single_execution_protection_delay := 2000
    purge_every_upserts_count := 1000
    upserts_since_purge_count := 0
    purge_scheduled := false
    purge_last_date := none }

/-- Whole-system state: the database, the scheduler globals, the pending
asynchronous continuations of a fire-and-forget `schedulePurge()` call, and
a ghost count of how many purges have actually been launched. -/
structure Sys where
  db : Db
  sched : SchedState
  pendingSweep : Bool
  pendingCooldown : Bool
  sweepsTriggered : Nat

/-- Synchronous prefix of `schedulePurge()`: if a purge is already scheduled
do nothing; otherwise set `purge_scheduled`, reset the write counter, and
leave the purge itself pending (it is awaited by `schedulePurge`, but
`schedulePurge` is not awaited by its caller). -/
def schedulePurgeStart (s : Sys) : Sys :=
  if s.sched.purge_scheduled then s
  else
    { s with
      sched := { s.sched with purge_scheduled := true, upserts_since_purge_count := 0 }
      pendingSweep := true
      sweepsTriggered := s.sweepsTriggered + 1 }

/-- One `upsert` call as a system step: increment the shared write counter,
call `schedulePurge()` (not awaited) when the counter reaches the threshold,
then perform the upsert's own database work and fulfill. -/
def upsertStep (s : Sys) (tname id : String) (payload : Data)
    (expiresIn : Option Int) (now : Int) : Sys × Except String Unit :=
  let s1 : Sys :=
    { s with sched := { s.sched with
        upserts_since_purge_count := s.sched.upserts_since_purge_count + 1 } }
  let s2 : Sys :=
    if s1.sched.upserts_since_purge_count ≥ s1.sched.purge_every_upserts_count then
      schedulePurgeStart s1
    else s1
  ({ s2 with db := fun t => if t == tname then upsert (s2.db tname) id payload expiresIn now else s2.db t },
   Except.ok ())

/-- The pending purge running (the body of the static `purge()`): delete
expired volatile rows, record `purge_last_date`, and leave the cooldown
`delay(...)` pending. -/
def runSweepStep (s : Sys) (now : Int) : Sys :=
  if s.pendingSweep then
    { s with
      db := purge s.db now
      sched := { s.sched with purge_last_date := some now }
      pendingSweep := false
      pendingCooldown := true }
  else s

/-- The cooldown `delay(purge_single_execution_protection_delay)` elapsing:
`purge_scheduled` goes back to `false`. -/
def cooldownStep (s : Sys) : Sys :=
  if s.pendingCooldown then
    { s with
      sched := { s.sched with purge_scheduled := false }
      pendingCooldown := false }
  else s

/-- One `find` call as a system step: it reads the database and touches no
module-global state. -/
def findStep (s : Sys) (tname id : String) (now : Int) : Sys × Option Data :=
  (s, find (s.db tname) id now)

/-- One `findByUid` call as a system step. -/
def findByUidStep (s : Sys) (tname uid : String) (now : Int) : Sys × Option Data :=
  (s, findByUid (s.db tname) uid now)

/-- One `findByUserCode` call as a system step. -/
def findByUserCodeStep (s : Sys) (tname userCode : String) (now : Int) : Sys × Option Data :=
  (s, findByUserCode (s.db tname) userCode now)

/-- One `get` call as a system step. -/
def getStep (s : Sys) (tname : String) (ids : Option (List String)) : Sys × Table :=
  (s, get (s.db tname) ids)

/-- Events of the system: the calls that touch the scheduler plus the two
asynchronous continuations of a triggered purge. -/
inductive Event where
  | upsertE (tname id : String) (payload : Data) (expiresIn : Option Int) (now : Int)
  | sweepE (now : Int)
  | cooldownE
deriving DecidableEq

/-- Small-step interpretation of one event. -/
def stepE (s : Sys) : Event → Sys
  | .upsertE tname id payload e now => (upsertStep s tname id payload e now).1
  | .sweepE now => runSweepStep s now
  | .cooldownE => cooldownStep s

/-- Run a sequence of events. -/
def runE (s : Sys) (evs : List Event) : Sys :=
  evs.foldl stepE s

/-! ### Helper lemmas about the table-level operations -/

/-- When no row matching `m` is still visible, the read-path filter selects
nothing. -/
lemma filter_select_eq_nil (tbl : Table) (m : Record → Bool) (E now' : Int)
    (hvis : ¬ now' < E)
    (hall : ∀ r ∈ tbl, m r = true → r.expires_at = some E) :
    tbl.filter (fun r => m r && visible r now') = [] := by
  rw [List.filter_eq_nil_iff]
  intro r hr hcontra
  rw [Bool.and_eq_true] at hcontra
  obtain ⟨hm, hv⟩ := hcontra
  have he := hall r hr hm
  simp only [visible, he, decide_eq_true_eq] at hv
  exact hvis hv

/-- When some row matching `m` exists and all matching rows carry the same
payload and expiry, a visible instant selects that payload. -/
lemma select_head_some (tbl : Table) (m : Record → Bool) (payload : Data) (E now' : Int)
    (hvis : now' < E)
    (hex : ∃ r ∈ tbl, m r = true)
    (hall : ∀ r ∈ tbl, m r = true → r.data = payload ∧ r.expires_at = some E) :
    ((tbl.filter (fun r => m r && visible r now')).head?).map (fun r => r.data)
      = some payload := by
  induction tbl with
  | nil => obtain ⟨r, hr, _⟩ := hex; cases hr
  | cons a tl ih =>
    by_cases hm : m a = true
    · obtain ⟨hd, he⟩ := hall a (List.mem_cons_self a tl) hm
      have hv : visible a now' = true := by
        simp only [visible, he, decide_eq_true_eq]; exact hvis
      simp [List.filter_cons, hm, hv, hd]
    · have hex' : ∃ r ∈ tl, m r = true := by
        obtain ⟨r, hr, hmr⟩ := hex
        rcases List.mem_cons.mp hr with h1 | h2
        · subst h1; exact absurd hmr hm
        · exact ⟨r, h2, hmr⟩
      have hall' : ∀ r ∈ tl, m r = true → r.data = payload ∧ r.expires_at = some E :=
        fun r hr => hall r (List.mem_cons_of_mem a hr)
      simpa [List.filter_cons, hm] using ih hex' hall'

/-- Read-path selection over a table whose rows matching `m` all carry
payload `payload` and expiry `E`: the payload while `now' < E`, `null` at or
after `E`. -/
lemma select_uniform (tbl : Table) (m : Record → Bool) (payload : Data) (E now' : Int)
    (hex : ∃ r ∈ tbl, m r = true)
    (hall : ∀ r ∈ tbl, m r = true → r.data = payload ∧ r.expires_at = some E) :
    ((tbl.filter (fun r => m r && visible r now')).head?).map (fun r => r.data)
      = if now' < E then some payload else none := by
  by_cases hvis : now' < E
  · rw [if_pos hvis]
    exact select_head_some tbl m payload E now' hvis hex hall
  · rw [if_neg hvis,
      filter_select_eq_nil tbl m E now' hvis (fun r hr hm => (hall r hr hm).2)]
    rfl

/-- `upsert` on the insert branch. -/
lemma upsert_of_isEmpty (tbl : Table) (id : String) (payload : Data)
    (e : Option Int) (now : Int)
    (h : (tbl.filter (fun r => r.id == id)).isEmpty = true) :
    upsert tbl id payload e now
      = tbl ++ [{ id := id, data := payload, created_at := now,
                  updated_at := none, expires_at := newExpires e now }] := by
  rw [upsert, if_pos h]

/-- `upsert` on the update branch. -/
lemma upsert_of_not_isEmpty (tbl : Table) (id : String) (payload : Data)
    (e : Option Int) (now : Int)
    (h : (tbl.filter (fun r => r.id == id)).isEmpty = false) :
    upsert tbl id payload e now
      = tbl.map (fun r =>
          if r.id == id then
            { r with
              data := payload
              updated_at := some now
              expires_at := mergeExpires (newExpires e now) r.expires_at }
          else r) := by
  rw [upsert, if_neg (by simp [h])]

/-- After an upsert, some row carries the upserted id. -/
lemma upsert_exists_id (tbl : Table) (id : String) (payload : Data)
    (e : Option Int) (now : Int) :
    ∃ r ∈ upsert tbl id payload e now, r.id = id := by
  by_cases h : (tbl.filter (fun r => r.id == id)).isEmpty = true
  · refine ⟨{ id := id, data := payload, created_at := now,
              updated_at := none, expires_at := newExpires e now }, ?_, rfl⟩
    rw [upsert_of_isEmpty tbl id payload e now h]
    exact List.mem_append_right _ (by simp)
  · have hne : tbl.filter (fun r => r.id == id) ≠ [] := by
      intro hnil
      rw [hnil] at h
      exact h rfl
    obtain ⟨r0, hr0⟩ := List.exists_mem_of_ne_nil _ hne
    obtain ⟨hmem, hid⟩ := List.mem_filter.mp hr0
    refine ⟨{ r0 with
              data := payload
              updated_at := some now
              expires_at := mergeExpires (newExpires e now) r0.expires_at },
            ?_, by simpa using hid⟩
    rw [upsert_of_not_isEmpty tbl id payload e now (by simpa using h)]
    exact List.mem_map.mpr ⟨r0, hmem, by rw [if_pos hid]⟩

/-- After an upsert with a nonzero TTL, every row carrying the upserted id
holds the new payload and the new expiry `now + t * 1000`. -/
lemma upsert_id_rows_ttl (tbl : Table) (id : String) (payload : Data)
    (t now : Int) (ht : t ≠ 0) :
    ∀ r ∈ upsert tbl id payload (some t) now, r.id = id →
      r.data = payload ∧ r.expires_at = some (now + t * 1000) := by
  have hnewE : newExpires (some t) now = some (now + t * 1000) := by
    simp [newExpires, ht]
  intro r hr hid
  by_cases h : (tbl.filter (fun r => r.id == id)).isEmpty = true
  · rw [upsert_of_isEmpty tbl id payload (some t) now h] at hr
    rcases List.mem_append.mp hr with h1 | h2
    · exfalso
      have hmemf : r ∈ tbl.filter (fun r => r.id == id) :=
        List.mem_filter.mpr ⟨h1, by simp [hid]⟩
      rw [List.isEmpty_iff] at h
      rw [h] at hmemf
      cases hmemf
    · have h2' : r = { id := id, data := payload, created_at := now,
                       updated_at := none, expires_at := newExpires (some t) now } := by
        simpa using h2
      subst h2'
      exact ⟨rfl, by simp [hnewE]⟩
  · rw [upsert_of_not_isEmpty tbl id payload (some t) now (by simpa using h)] at hr
    obtain ⟨r0, hr0, hfr⟩ := List.mem_map.mp hr
    by_cases hid0 : (r0.id == id) = true
    · rw [if_pos hid0] at hfr
      subst hfr
      exact ⟨rfl, by simp [mergeExpires, hnewE]⟩
    · rw [if_neg hid0] at hfr
      subst hfr
      exact absurd (by simp [hid]) hid0

/-- An upsert leaves every row with a different id untouched (it is a row of
the original table). -/
lemma upsert_mem_of_ne_id (tbl : Table) (id : String) (payload : Data)
    (e : Option Int) (now : Int) :
    ∀ r ∈ upsert tbl id payload e now, r.id ≠ id → r ∈ tbl := by
  intro r hr hne
  by_cases h : (tbl.filter (fun r => r.id == id)).isEmpty = true
  · rw [upsert_of_isEmpty tbl id payload e now h] at hr
    rcases List.mem_append.mp hr with h1 | h2
    · exact h1
    · exfalso
      have h2' : r = { id := id, data := payload, created_at := now,
                       updated_at := none, expires_at := newExpires e now } := by
        simpa using h2
      exact hne (by rw [h2'])
  · rw [upsert_of_not_isEmpty tbl id payload e now (by simpa using h)] at hr
    obtain ⟨r0, hr0, hfr⟩ := List.mem_map.mp hr
    by_cases hid0 : (r0.id == id) = true
    · rw [if_pos hid0] at hfr
      exfalso
      apply hne
      rw [← hfr]
      simpa using hid0
    · rw [if_neg hid0] at hfr
      subst hfr
      exact hr0

/-- Visibility of `find` after an upsert with a nonzero TTL: payload while
`now' < now + t * 1000`, `null` at or after. -/
lemma find_upsert_ttl (tbl : Table) (id : String) (payload : Data)
    (t now now' : Int) (ht : t ≠ 0) :
    find (upsert tbl id payload (some t) now) id now'
      = if now' < now + t * 1000 then some payload else none := by
  rw [find]
  exact select_uniform (upsert tbl id payload (some t) now)
    (fun r => r.id == id) payload (now + t * 1000) now'
    (by
      obtain ⟨r, hr, hid⟩ := upsert_exists_id tbl id payload (some t) now
      exact ⟨r, hr, by simp [hid]⟩)
    (fun r hr hm =>
      upsert_id_rows_ttl tbl id payload t now ht r hr (by simpa using hm))

/-- Visibility of `findByUid`/`findByUserCode` after an upsert with a nonzero
TTL, when the payload carries the looked-up field and no other row does. -/
lemma findByField_upsert_ttl (tbl : Table) (id field v : String) (payload : Data)
    (t now now' : Int) (ht : t ≠ 0)
    (hpay : lookupField payload field = some v)
    (hother : ∀ r ∈ tbl, r.id ≠ id → lookupField r.data field ≠ some v) :
    findByField (upsert tbl id payload (some t) now) field v now'
      = if now' < now + t * 1000 then some payload else none := by
  rw [findByField]
  refine select_uniform (upsert tbl id payload (some t) now)
    (fun r => lookupField r.data field == some v) payload (now + t * 1000) now' ?_ ?_
  · obtain ⟨r, hr, hid⟩ := upsert_exists_id tbl id payload (some t) now
    obtain ⟨hd, _⟩ := upsert_id_rows_ttl tbl id payload t now ht r hr hid
    exact ⟨r, hr, by simp [hd, hpay]⟩
  · intro r hr hm
    by_cases hid : r.id = id
    · exact upsert_id_rows_ttl tbl id payload t now ht r hr hid
    · exfalso
      have hmem := upsert_mem_of_ne_id tbl id payload (some t) now r hr hid
      exact hother r hmem hid (by simpa using hm)

/-! ### C1 -/

/-- C1 counterexample: the claim fails at `ttlSeconds = 0`.  A record stored
at instant `0` with `ttlSeconds = 0` should, per the claim, be "not found"
at every instant `≥ 0 + 0`; but the JS truthiness guard `if (expiresIn)`
skips a zero TTL, the row is stored without `expires_at`, and `find` still
returns its data at instant `0` (and forever). -/
theorem C1_counterexample :
    (0 : Int) ≥ 0 + 0 * 1000
    ∧ find (upsert [] "a" [("k", "v")] (some 0) 0) "a" 0 = some [("k", "v")] := by
  constructor
  · decide
  · decide

/-- C1 (amended: for records stored with a *nonzero* `ttlSeconds = t`; a zero
TTL is ignored by the truthiness guard and stores a non-expiring row): after
`upsert` with TTL `t ≠ 0` at instant `now`, `find` returns the record's data
at every instant strictly before `now + t` seconds and the `null` sentinel at
or after that instant, with no sweep involved; `findByUid` and
`findByUserCode` follow the same rule whenever the stored payload carries the
looked-up field value and no other row does. -/
theorem C1_expiration_visibility (tbl : Table) (id uid userCode : String)
    (payload : Data) (t now now' : Int) (ht : t ≠ 0) :
    find (upsert tbl id payload (some t) now) id now'
      = (if now' < now + t * 1000 then some payload else none)
    ∧ (lookupField payload "uid" = some uid →
        (∀ r ∈ tbl, r.id ≠ id → lookupField r.data "uid" ≠ some uid) →
        findByUid (upsert tbl id payload (some t) now) uid now'
          = (if now' < now + t * 1000 then some payload else none))
    ∧ (lookupField payload "userCode" = some userCode →
        (∀ r ∈ tbl, r.id ≠ id → lookupField r.data "userCode" ≠ some userCode) →
        findByUserCode (upsert tbl id payload (some t) now) userCode now'
          = (if now' < now + t * 1000 then some payload else none)) := by
  refine ⟨find_upsert_ttl tbl id payload t now now' ht, ?_, ?_⟩
  · intro hpay hother
    exact findByField_upsert_ttl tbl id "uid" uid payload t now now' ht hpay hother
  · intro hpay hother
    exact findByField_upsert_ttl tbl id "userCode" userCode payload t now now' ht hpay hother

/-- C1 witness: a record stored at instant `0` with a 2-second TTL is found
at instant `1000` and gone at instant `2000`. -/
theorem C1_witness :
    find (upsert [] "a" [("uid", "u")] (some 2) 0) "a" 1000
      = (if (1000 : Int) < 0 + 2 * 1000 then some [("uid", "u")] else none)
    ∧ find (upsert [] "b" [("k", "v")] (some 2) 0) "b" 2000
      = (if (2000 : Int) < 0 + 2 * 1000 then some [("k", "v")] else none) :=
  ⟨(C1_expiration_visibility [] "a" "u" "c" [("uid", "u")] 2 0 1000 (by decide)).1,
   (C1_expiration_visibility [] "b" "u" "c" [("k", "v")] 2 0 2000 (by decide)).1⟩

/-! ### C2 -/

/-- The purge predicate coincides with read-path visibility: a row survives
the sweep exactly when it is still visible. -/
lemma purgeTable_eq_filter_visible (tbl : Table) (now : Int) :
    purgeTable tbl now = tbl.filter (fun r => visible r now) := rfl

/-- Membership in a volatile table after a purge. -/
lemma mem_purge_iff (db : Db) (now : Int) (tname : String)
    (h : tname ∈ volatileTableNames) (r : Record) :
    r ∈ purge db now tname ↔ r ∈ db tname ∧ visible r now = true := by
  rw [purge, if_pos (List.elem_iff.mpr h), purgeTable_eq_filter_visible]
  exact List.mem_filter

/-- C2: after `purge` at instant `now`, in every volatile namespace a row
with `expires_at ≤ now` is gone, a row with `expires_at > now` remains, and
a row with NULL `expires_at` is never deleted (SQL: `NULL <= now` selects
nothing). -/
theorem C2_sweep_correctness (db : Db) (now : Int) (tname : String)
    (h : tname ∈ volatileTableNames) (r : Record) :
    ((∃ e, r.expires_at = some e ∧ e ≤ now) → r ∉ purge db now tname)
    ∧ (r ∈ db tname → (∃ e, r.expires_at = some e ∧ now < e) → r ∈ purge db now tname)
    ∧ (r ∈ db tname → r.expires_at = none → r ∈ purge db now tname) := by
  refine ⟨?_, ?_, ?_⟩
  · rintro ⟨e, he, hle⟩ hmem
    have hv := ((mem_purge_iff db now tname h r).mp hmem).2
    simp only [visible, he, decide_eq_true_eq] at hv
    omega
  · rintro hmem ⟨e, he, hlt⟩
    refine (mem_purge_iff db now tname h r).mpr ⟨hmem, ?_⟩
    simp only [visible, he, decide_eq_true_eq]
    exact hlt
  · intro hmem he
    refine (mem_purge_iff db now tname h r).mpr ⟨hmem, ?_⟩
    simp [visible, he]

/-- A concrete database for the C2 witness: one live, one expired and one
durable row in the `Session` namespace. -/
def dbC2 : Db := fun t =>
  if t = "oidc.session" then
    [{ id := "dead", data := [], created_at := 1, updated_at := none, expires_at := some 5 },
     { id := "live", data := [], created_at := 2, updated_at := none, expires_at := some 20 },
     { id := "durable", data := [], created_at := 3, updated_at := none, expires_at := none }]
  else []

/-- C2 witness: at `now = 10` the expired row is gone while the live and the
durable rows survive the purge of the `Session` namespace. -/
theorem C2_witness :
    ({ id := "dead", data := [], created_at := 1, updated_at := none,
       expires_at := some 5 } : Record) ∉ purge dbC2 10 "oidc.session"
    ∧ ({ id := "live", data := [], created_at := 2, updated_at := none,
         expires_at := some 20 } : Record) ∈ purge dbC2 10 "oidc.session"
    ∧ ({ id := "durable", data := [], created_at := 3, updated_at := none,
         expires_at := none } : Record) ∈ purge dbC2 10 "oidc.session" :=
  ⟨(C2_sweep_correctness dbC2 10 "oidc.session" (by decide) _).1 ⟨5, rfl, by decide⟩,
   (C2_sweep_correctness dbC2 10 "oidc.session" (by decide) _).2.1 (by decide) ⟨20, rfl, by decide⟩,
   (C2_sweep_correctness dbC2 10 "oidc.session" (by decide) _).2.2 (by decide) rfl⟩

/-! ### C4 -/

/-- C4 counterexample: the claim fails at `ttlSeconds = 0`.  Upserting a
fresh record with `expiresIn = 0` at instant `100` stores NULL `expires_at`,
not `100 + 0 * 1000` as the claim requires: the JS truthiness guard
`if (expiresIn)` treats `0` like an omitted TTL. -/
theorem C4_counterexample :
    (upsert [] "a" [("k", "v")] (some 0) 100).map (fun r => r.expires_at)
      ≠ [some (100 + 0 * 1000)]
    ∧ (upsert [] "a" [("k", "v")] (some 0) 100).map (fun r => r.expires_at)
      = [none] := by
  constructor
  · decide
  · decide

/-- C4 (amended: for a *nonzero* `ttlSeconds`, negative included, `upsert`
sets the row's `expires_at` to `now + ttlSeconds` — so a negative TTL makes
the record expire immediately; a `ttlSeconds` of zero behaves exactly like an
omitted one, which leaves `expires_at` unset on insert and untouched on
update). -/
theorem C4_ttl_sets_expiry (tbl : Table) (id : String) (payload : Data)
    (t now : Int) (ht : t ≠ 0) :
    (∀ r ∈ upsert tbl id payload (some t) now, r.id = id →
        r.expires_at = some (now + t * 1000))
    ∧ upsert tbl id payload (some 0) now = upsert tbl id payload none now
    ∧ ((tbl.filter (fun r => r.id == id)).isEmpty = true →
        upsert tbl id payload none now
          = tbl ++ [{ id := id, data := payload, created_at := now,
                      updated_at := none, expires_at := none }]) := by
  refine ⟨fun r hr hid => (upsert_id_rows_ttl tbl id payload t now ht r hr hid).2, ?_, ?_⟩
  · simp [upsert, newExpires]
  · intro h
    rw [upsert_of_isEmpty tbl id payload none now h]
    rfl

/-- C4 witness: a negative TTL of `-2` seconds at instant `100` yields
`expires_at = 100 - 2000`, and a zero TTL behaves like an omitted one. -/
theorem C4_witness :
    Record.expires_at
        { id := "a", data := [("k", "v")], created_at := 100, updated_at := none,
          expires_at := some (100 + (-2) * 1000) }
      = some (100 + (-2) * 1000)
    ∧ upsert [] "a" [("k", "v")] (some 0) 5 = upsert [] "a" [("k", "v")] none 5 :=
  ⟨(C4_ttl_sets_expiry [] "a" [("k", "v")] (-2) 100 (by decide)).1
      { id := "a", data := [("k", "v")], created_at := 100, updated_at := none,
        expires_at := some (100 + (-2) * 1000) }
      (by decide) rfl,
   (C4_ttl_sets_expiry [] "a" [("k", "v")] (-2) 5 (by decide)).2.1⟩

/-! ### C10 -/

/-- C10: re-upserting an existing id with `ttlSeconds` omitted rewrites only
`data` and `updated_at`; every row keeps its `created_at` and its previous
`expires_at` (the expiry is neither cleared nor extended), and a zero
`ttlSeconds` behaves identically to an omitted one. -/
theorem C10_reupsert_without_ttl_is_frame (tbl : Table) (id : String)
    (payload : Data) (now : Int)
    (h : (tbl.filter (fun r => r.id == id)).isEmpty = false) :
    upsert tbl id payload none now
      = tbl.map (fun r =>
          if r.id == id then { r with data := payload, updated_at := some now } else r)
    ∧ upsert tbl id payload (some 0) now = upsert tbl id payload none now
    ∧ (upsert tbl id payload none now).map (fun r => (r.created_at, r.expires_at))
      = tbl.map (fun r => (r.created_at, r.expires_at)) := by
  have h1 : upsert tbl id payload none now
      = tbl.map (fun r =>
          if r.id == id then { r with data := payload, updated_at := some now } else r) := by
    rw [upsert_of_not_isEmpty tbl id payload none now h]
    simp [mergeExpires, newExpires]
  refine ⟨h1, by simp [upsert, newExpires], ?_⟩
  rw [h1, List.map_map]
  apply List.map_congr_left
  intro r _
  by_cases hid : (r.id == id) = true
  · simp [Function.comp, hid]
  · simp [Function.comp, hid]

/-- A stored row used by the C10 witness: it carries an expiry. -/
def rowC10 : Record :=
  { id := "a", data := [("k", "v")], created_at := 0, updated_at := none,
    expires_at := some 100 }

/-- C10 witness: re-upserting id `"a"` without a TTL at instant `9` rewrites
`data` and `updated_at` but keeps `created_at = 0` and `expires_at = 100`. -/
theorem C10_witness :
    upsert [rowC10] "a" [("k2", "v2")] none 9
      = [{ id := "a", data := [("k2", "v2")], created_at := 0,
           updated_at := some 9, expires_at := some 100 }] :=
  ((C10_reupsert_without_ttl_is_frame [rowC10] "a" [("k2", "v2")] 9 (by decide)).1).trans
    (by decide)

/-! ### C6 -/

/-- `consume` when the id selects nothing: `record[0].data` throws. -/
lemma consume_of_filter_nil (tbl : Table) (id : String) (now : Int)
    (h : tbl.filter (fun r => r.id == id) = []) :
    consume tbl id now = Except.error "TypeError: record[0] is undefined" := by
  rw [consume, h]

/-- `consume` when the id selects at least one row. -/
lemma consume_of_filter_cons (tbl : Table) (id : String) (now : Int)
    (r0 : Record) (rest : Table)
    (h : tbl.filter (fun r => r.id == id) = r0 :: rest) :
    consume tbl id now
      = Except.ok (tbl.map (fun r =>
          if r.id == id then
            { r with data := setField r0.data "consumed" (toString now) }
          else r)) := by
  rw [consume, h]

/-- `find` fulfills with the `null` sentinel when no visible row matches. -/
lemma find_eq_none_of_no_visible (tbl : Table) (id : String) (now : Int)
    (h : ∀ r ∈ tbl, ¬(r.id = id ∧ visible r now = true)) :
    find tbl id now = none := by
  rw [find, List.filter_eq_nil_iff.mpr ?_]
  · rfl
  · intro r hr hcontra
    rw [Bool.and_eq_true] at hcontra
    exact h r hr ⟨by simpa using hcontra.1, hcontra.2⟩

/-- `findByUid`/`findByUserCode` fulfill with the `null` sentinel when no
visible row contains the looked-up field value. -/
lemma findByField_eq_none_of_no_visible (tbl : Table) (field v : String) (now : Int)
    (h : ∀ r ∈ tbl, ¬(lookupField r.data field = some v ∧ visible r now = true)) :
    findByField tbl field v now = none := by
  rw [findByField, List.filter_eq_nil_iff.mpr ?_]
  · rfl
  · intro r hr hcontra
    rw [Bool.and_eq_true] at hcontra
    exact h r hr ⟨by simpa using hcontra.1, hcontra.2⟩

/-- C6: `consume` rejects exactly when no row with the id exists (its result
is a rejection, not a silent no-op), while the lookups return the fulfilled
`null` sentinel — never a rejection — when no visible row matches. -/
theorem C6_consume_errors_on_absence (tbl : Table) (id uid userCode : String)
    (now : Int) :
    ((consume tbl id now).isOk = false ↔ ∀ r ∈ tbl, r.id ≠ id)
    ∧ ((∀ r ∈ tbl, ¬(r.id = id ∧ visible r now = true)) → find tbl id now = none)
    ∧ ((∀ r ∈ tbl, ¬(lookupField r.data "uid" = some uid ∧ visible r now = true)) →
        findByUid tbl uid now = none)
    ∧ ((∀ r ∈ tbl, ¬(lookupField r.data "userCode" = some userCode
          ∧ visible r now = true)) →
        findByUserCode tbl userCode now = none) := by
  refine ⟨?_, find_eq_none_of_no_visible tbl id now,
    findByField_eq_none_of_no_visible tbl "uid" uid now,
    findByField_eq_none_of_no_visible tbl "userCode" userCode now⟩
  cases hfil : tbl.filter (fun r => r.id == id) with
  | nil =>
    rw [consume_of_filter_nil tbl id now hfil]
    simp only [Except.isOk, Except.toBool, true_iff]
    intro r hr hid
    have : r ∈ tbl.filter (fun r => r.id == id) :=
      List.mem_filter.mpr ⟨hr, by simp [hid]⟩
    rw [hfil] at this
    cases this
  | cons r0 rest =>
    rw [consume_of_filter_cons tbl id now r0 rest hfil]
    constructor
    · intro hcontra
      exact absurd hcontra (by simp [Except.isOk, Except.toBool])
    · intro hall
      exfalso
      have hr0 : r0 ∈ tbl.filter (fun r => r.id == id) := by
        rw [hfil]; exact List.mem_cons_self r0 rest
      obtain ⟨hmem, hid⟩ := List.mem_filter.mp hr0
      exact hall r0 hmem (by simpa using hid)

/-- C6 witness: on a one-row table, consuming a missing id rejects while the
three lookups return `null` for ids and field values that match nothing
visible. -/
theorem C6_witness :
    ((consume [rowC10] "zzz" 7).isOk = false)
    ∧ find [rowC10] "zzz" 7 = none
    ∧ findByUid [rowC10] "nope" 7 = none
    ∧ findByUserCode [rowC10] "nope" 7 = none :=
  ⟨(C6_consume_errors_on_absence [rowC10] "zzz" "nope" "nope" 7).1.mpr (by decide),
   (C6_consume_errors_on_absence [rowC10] "zzz" "nope" "nope" 7).2.1 (by decide),
   (C6_consume_errors_on_absence [rowC10] "zzz" "nope" "nope" 7).2.2.1 (by decide),
   (C6_consume_errors_on_absence [rowC10] "zzz" "nope" "nope" 7).2.2.2 (by decide)⟩

/-! ### C7 -/

/-- A successful `consume` writes only `data`: the `updated_at` column of
every row is exactly what it was (the adapter's `.update({data})` carries no
`updated_at`). -/
lemma consume_preserves_updated_at (tbl : Table) (id : String) (now : Int)
    (tbl2 : Table) (h : consume tbl id now = Except.ok tbl2) :
    tbl2.map (fun r => r.updated_at) = tbl.map (fun r => r.updated_at) := by
  cases hfil : tbl.filter (fun r => r.id == id) with
  | nil =>
    rw [consume_of_filter_nil tbl id now hfil] at h
    cases h
  | cons r0 rest =>
    rw [consume_of_filter_cons tbl id now r0 rest hfil] at h
    injection h with h2
    subst h2
    rw [List.map_map]
    apply List.map_congr_left
    intro r _
    by_cases hid : (r.id == id) = true
    · simp [Function.comp, hid]
    · simp [Function.comp, hid]

/-- C7 counterexample: `consume` is a modification of an existing row, yet it
does not touch `updated_at`.  A freshly inserted row (NULL `updated_at`) that
is then consumed at instant `5` still has NULL `updated_at`, where the claim
requires `5`. -/
theorem C7_counterexample :
    (consume (upsert [] "a" [("k", "v")] none 0) "a" 5).toOption.map
        (fun tbl => tbl.map (fun r => r.updated_at))
      ≠ some [some 5]
    ∧ (consume (upsert [] "a" [("k", "v")] none 0) "a" 5).toOption.map
        (fun tbl => tbl.map (fun r => r.updated_at))
      = some [none] := by
  constructor
  · decide
  · decide

/-- C7 (amended: `upsert` on an existing id sets that row's `updated_at` to
the instant of the update, and `updated_at` is absent on a pure insert; but
`consume`, which also modifies the row, writes only `data` and leaves
`updated_at` unchanged). -/
theorem C7_updated_at_discipline (tbl : Table) (id : String) (payload : Data)
    (e : Option Int) (now : Int) :
    ((tbl.filter (fun r => r.id == id)).isEmpty = false →
        ∀ r ∈ upsert tbl id payload e now, r.id = id → r.updated_at = some now)
    ∧ ((tbl.filter (fun r => r.id == id)).isEmpty = true →
        upsert tbl id payload e now
          = tbl ++ [{ id := id, data := payload, created_at := now,
                      updated_at := none, expires_at := newExpires e now }])
    ∧ (∀ tbl2, consume tbl id now = Except.ok tbl2 →
        tbl2.map (fun r => r.updated_at) = tbl.map (fun r => r.updated_at)) := by
  refine ⟨?_, upsert_of_isEmpty tbl id payload e now,
    consume_preserves_updated_at tbl id now⟩
  intro h r hr hid
  rw [upsert_of_not_isEmpty tbl id payload e now h] at hr
  obtain ⟨r0, _, hfr⟩ := List.mem_map.mp hr
  by_cases hid0 : (r0.id == id) = true
  · rw [if_pos hid0] at hfr
    subst hfr
    rfl
  · rw [if_neg hid0] at hfr
    subst hfr
    exact absurd (by simp [hid]) hid0

/-- C7 witness: updating the stored row `rowC10` at instant `9` stamps
`updated_at = 9`. -/
theorem C7_witness :
    Record.updated_at
        { id := "a", data := [("k2", "v2")], created_at := 0,
          updated_at := some 9, expires_at := some 100 }
      = some 9 :=
  (C7_updated_at_discipline [rowC10] "a" [("k2", "v2")] none 9).1 (by decide)
    { id := "a", data := [("k2", "v2")], created_at := 0,
      updated_at := some 9, expires_at := some 100 }
    (by decide) rfl

/-! ### C9 -/

/-- A database for the C9 theorems: the `Session` namespace holds exactly one
row, already expired at instant `10`. -/
def dbC9 : Db := fun t =>
  if t = tableName "Session" then
    [{ id := "x", data := [], created_at := 3, updated_at := none,
       expires_at := some 5 }]
  else []

/-- C9 counterexample: `getVolatileRecordsStats` counts every row of a
volatile table — its query has no visibility filter — so on a table whose
only row is expired at `now = 10` (zero live rows) it still reports a count
of `1`, where the claim requires the count of live (unexpired) rows. -/
theorem C9_counterexample :
    liveRowCount (dbC9 (tableName "Session")) 10 = 0
    ∧ ((getVolatileRecordsStats dbC9).head?).map (fun st => st.count) = some 1 := by
  constructor
  · decide
  · decide

/-- C9 (amended: for each volatile type, `getVolatileRecordsStats` returns
the count of *all* stored rows of that type — expired rows included — along
with the oldest and the newest `created_at` instants among those rows). -/
theorem C9_stats_counts_all_rows (db : Db) (n : String) (h : n ∈ VOLATILE_TYPES) :
    ({ type_name := n
       count := (db (tableName n)).length
       date_min := ((db (tableName n)).map (fun r => r.created_at)).min?
       date_max := ((db (tableName n)).map (fun r => r.created_at)).max? } : TypeStats)
      ∈ getVolatileRecordsStats db
    ∧ (∀ m, ((db (tableName n)).map (fun r => r.created_at)).min? = some m →
        m ∈ (db (tableName n)).map (fun r => r.created_at)
        ∧ ∀ x ∈ (db (tableName n)).map (fun r => r.created_at), m ≤ x)
    ∧ (∀ m, ((db (tableName n)).map (fun r => r.created_at)).max? = some m →
        m ∈ (db (tableName n)).map (fun r => r.created_at)
        ∧ ∀ x ∈ (db (tableName n)).map (fun r => r.created_at), x ≤ m) := by
  have hanti : Std.Antisymm (fun x1 x2 : Int => x1 ≤ x2) :=
    ⟨fun h1 h2 => le_antisymm h1 h2⟩
  refine ⟨List.mem_map.mpr ⟨n, h, rfl⟩, ?_, ?_⟩
  · intro m hm
    exact (List.min?_eq_some_iff (fun a => le_refl a) (fun a b => min_choice a b)
      (fun _ _ _ => le_min_iff)).mp hm
  · intro m hm
    exact (List.max?_eq_some_iff (fun a => le_refl a) (fun a b => max_choice a b)
      (fun _ _ _ => max_le_iff)).mp hm

/-- C9 witness: on `dbC9` the `Session` entry reports count `1` (the expired
row included) with `created_at` bounds `3`. -/
theorem C9_witness :
    ({ type_name := "Session"
       count := (dbC9 (tableName "Session")).length
       date_min := ((dbC9 (tableName "Session")).map (fun r => r.created_at)).min?
       date_max := ((dbC9 (tableName "Session")).map (fun r => r.created_at)).max? } : TypeStats)
      ∈ getVolatileRecordsStats dbC9
    ∧ (dbC9 (tableName "Session")).length = 1 :=
  ⟨(C9_stats_counts_all_rows dbC9 "Session" (by decide)).1, by decide⟩

/-! ### Helper lemmas about the scheduler step machine -/

/-- `schedulePurge`'s synchronous prefix never touches the database. -/
lemma schedulePurgeStart_db (s : Sys) : (schedulePurgeStart s).db = s.db := by
  rw [schedulePurgeStart]
  split <;> rfl

/-- While a purge is scheduled, an upsert's call into `schedulePurge` is
ignored: the sweep counter and the `purge_scheduled` flag are unchanged. -/
lemma upsertStep_sweeping_ignored (s : Sys) (tname id : String) (payload : Data)
    (e : Option Int) (now : Int) (h : s.sched.purge_scheduled = true) :
    (upsertStep s tname id payload e now).1.sweepsTriggered = s.sweepsTriggered
    ∧ (upsertStep s tname id payload e now).1.sched.purge_scheduled = true := by
  rw [upsertStep]
  by_cases hc : s.sched.upserts_since_purge_count + 1 ≥ s.sched.purge_every_upserts_count
  · simp [hc, schedulePurgeStart, h]
  · simp [hc, h]

/-- Running the pending sweep changes neither the sweep count nor
`purge_scheduled` (only the cooldown expiry resets the flag). -/
lemma runSweepStep_sched (s : Sys) (now : Int) :
    (runSweepStep s now).sweepsTriggered = s.sweepsTriggered
    ∧ (runSweepStep s now).sched.purge_scheduled = s.sched.purge_scheduled := by
  rw [runSweepStep]
  split <;> simp

/-- In any event sequence free of cooldown expiries, a system already in the
sweeping state launches no further purge and stays sweeping. -/
lemma no_cooldown_no_more_sweeps (evs : List Event) :
    ∀ s : Sys, (∀ ev ∈ evs, ev ≠ Event.cooldownE) → s.sched.purge_scheduled = true →
      (runE s evs).sweepsTriggered = s.sweepsTriggered
      ∧ (runE s evs).sched.purge_scheduled = true := by
  induction evs with
  | nil => exact fun s _ h => ⟨rfl, h⟩
  | cons ev tl ih =>
    intro s hno h
    have hstep : (stepE s ev).sweepsTriggered = s.sweepsTriggered
        ∧ (stepE s ev).sched.purge_scheduled = true := by
      cases ev with
      | upsertE tname id payload e now =>
        exact upsertStep_sweeping_ignored s tname id payload e now h
      | sweepE now =>
        refine ⟨(runSweepStep_sched s now).1, ?_⟩
        show (runSweepStep s now).sched.purge_scheduled = true
        rw [(runSweepStep_sched s now).2]
        exact h
      | cooldownE =>
        exact absurd rfl (hno _ (List.mem_cons_self _ _))
    have hrest := ih (stepE s ev) (fun e2 he2 => hno e2 (List.mem_cons_of_mem _ he2)) hstep.2
    have hfold : runE s (ev :: tl) = runE (stepE s ev) tl := rfl
    rw [hfold]
    exact ⟨hrest.1.trans hstep.1, hrest.2⟩

/-! ### C3 -/

/-- Initial system state for the C3 burst: fresh scheduler with the claim's
trigger threshold of `5` writes and the default cooldown of `2000` ms. -/
def burstStart : Sys :=
  { db := fun _ => []
    sched := { initialSched with purge_every_upserts_count := 5 }
    pendingSweep := false
    pendingCooldown := false
    sweepsTriggered := 0 }

/-- C3: with threshold `5` and cooldown `2000` ms, a burst of 20 consecutive
upserts launches at most one sweep; and from any sweeping state (purge in
progress or cooldown not yet elapsed), any sequence of upserts and sweep
completions that contains no cooldown expiry launches no further sweep and
leaves the system sweeping — a second sweep can start only after the
cooldown elapses. -/
theorem C3_debounce :
    (runE burstStart
        (List.replicate 20 (Event.upsertE (tableName "Session") "a" [] none 0))).sweepsTriggered
      ≤ 1
    ∧ ∀ (evs : List Event), (∀ ev ∈ evs, ev ≠ Event.cooldownE) →
        ∀ s : Sys, s.sched.purge_scheduled = true →
          (runE s evs).sweepsTriggered = s.sweepsTriggered
          ∧ (runE s evs).sched.purge_scheduled = true := by
  refine ⟨?_, fun evs hno s hs => no_cooldown_no_more_sweeps evs s hno hs⟩
  have h1 : (runE burstStart
      (List.replicate 20 (Event.upsertE (tableName "Session") "a" [] none 0))).sweepsTriggered
      = 1 := by rfl
  rw [h1]

/-- A system in the sweeping state (purge launched, cooldown pending) used by
the C3 and C5 witnesses. -/
def sweepingSys : Sys :=
  { db := fun _ => []
    sched := { initialSched with purge_every_upserts_count := 5, purge_scheduled := true }
    pendingSweep := true
    pendingCooldown := false
    sweepsTriggered := 1 }

/-- C3 witness: from the sweeping state, an upsert burst followed by the
sweep completing launches no second sweep. -/
theorem C3_witness :
    (runE sweepingSys
        [Event.upsertE (tableName "Session") "b" [] none 3,
         Event.upsertE (tableName "Session") "b" [] none 4,
         Event.sweepE 5]).sweepsTriggered = sweepingSys.sweepsTriggered
    ∧ (runE sweepingSys
        [Event.upsertE (tableName "Session") "b" [] none 3,
         Event.upsertE (tableName "Session") "b" [] none 4,
         Event.sweepE 5]).sched.purge_scheduled = true :=
  C3_debounce.2
    [Event.upsertE (tableName "Session") "b" [] none 3,
     Event.upsertE (tableName "Session") "b" [] none 4,
     Event.sweepE 5]
    (by decide) sweepingSys rfl

/-! ### C5 -/

/-- C5: the sweep trigger is fire-and-forget.  An upsert step always fulfills
with success; the database it leaves behind carries exactly the upsert's own
write — the triggering call's namespace is upserted, every other namespace is
untouched, and in particular no expired row has been purged when the upsert
returns.  The purge's deletions happen only in the separate pending-sweep
step that was left behind. -/
theorem C5_fire_and_forget (s : Sys) (tname id : String) (payload : Data)
    (e : Option Int) (now : Int) :
    (upsertStep s tname id payload e now).2 = Except.ok ()
    ∧ (upsertStep s tname id payload e now).1.db tname
      = upsert (s.db tname) id payload e now
    ∧ (∀ u, u ≠ tname → (upsertStep s tname id payload e now).1.db u = s.db u)
    ∧ (∀ now2, (upsertStep s tname id payload e now).1.pendingSweep = true →
        (runSweepStep (upsertStep s tname id payload e now).1 now2).db
          = purge (upsertStep s tname id payload e now).1.db now2) := by
  have hdb : (upsertStep s tname id payload e now).1.db
      = fun u => if u == tname then upsert (s.db tname) id payload e now else s.db u := by
    rw [upsertStep]
    by_cases hc : s.sched.upserts_since_purge_count + 1 ≥ s.sched.purge_every_upserts_count
    · rw [if_pos hc]
      rw [schedulePurgeStart]
      split <;> rfl
    · rw [if_neg hc]
  refine ⟨rfl, ?_, ?_, ?_⟩
  · rw [hdb]
    simp
  · intro u hu
    rw [hdb]
    simp [hu]
  · intro now2 hpending
    rw [runSweepStep, if_pos hpending]

/-- C5 witness: from the sweeping state, an upsert into the `Session`
namespace leaves the `AccessToken` namespace untouched when it returns. -/
theorem C5_witness :
    (upsertStep sweepingSys (tableName "Session") "c" [] none 7).1.db
        (tableName "AccessToken")
      = sweepingSys.db (tableName "AccessToken") :=
  (C5_fire_and_forget sweepingSys (tableName "Session") "c" [] none 7).2.2.1
    (tableName "AccessToken") (by decide)

/-! ### C8 -/

/-- C8: the shared write counter is incremented exactly once per upsert call
(and reset to zero exactly when that call launches a sweep), while `find`,
`findByUid`, `findByUserCode` and `get` leave the whole system state —
counter, flags, ghost sweep count and database — untouched, so they never
trigger a sweep. -/
theorem C8_only_upserts_count (s : Sys) (tname id uid userCode : String)
    (payload : Data) (e : Option Int) (now : Int) (ids : Option (List String)) :
    (upsertStep s tname id payload e now).1.sched.upserts_since_purge_count
      = (if s.sched.upserts_since_purge_count + 1 ≥ s.sched.purge_every_upserts_count
            ∧ s.sched.purge_scheduled = false
         then 0
         else s.sched.upserts_since_purge_count + 1)
    ∧ (findStep s tname id now).1 = s
    ∧ (findByUidStep s tname uid now).1 = s
    ∧ (findByUserCodeStep s tname userCode now).1 = s
    ∧ (getStep s tname ids).1 = s := by
  refine ⟨?_, rfl, rfl, rfl, rfl⟩
  by_cases hc : s.sched.upserts_since_purge_count + 1 ≥ s.sched.purge_every_upserts_count
  · cases hsch : s.sched.purge_scheduled with
    | true => simp [upsertStep, schedulePurgeStart, hc, hsch]
    | false => simp [upsertStep, schedulePurgeStart, hc, hsch]
  · simp [upsertStep, schedulePurgeStart, hc]

end StorageAdapter
